import Mathlib

/-
  Verification of the leybold-opc client (Rust) against its specification.

  Shallow embedding conventions:
  * Bytes are Nat values; multi-byte wire integers are big-endian byte lists
    (src encodes with to_be_bytes / binrw big endian).
  * Rust Result / BinResult values become Except; a Rust panic (assert_eq,
    unwrap, todo) is the distinguished error PErr.panic, kept apart from
    recoverable decode errors (eof, bad magic).
  * The SDB type table is represented by its unfolding: a TypeInfo handle in
    src/sdb.rs is (sdb ref, descriptor index) with kind, type_size and a
    kind-dependent payload (none / array / struct members); here the payload
    holds the referenced descriptors inline, so TypeInfo is a tree.  The
    accessors kind, response_len, array_info, struct_info mirror the api of
    src/sdb.rs.
  * Value.String in src holds the CP1252 decoding of the NUL-truncated byte
    buffer; CP1252.decode in the yore crate is a total injective map from
    bytes to characters, so the byte list before decoding determines the
    string and Value.string here stores that byte list.
-/

namespace LeyboldOpc

/-- Big-endian value of a byte list, most significant byte first. -/
def fromBE (l : List Nat) : Nat := l.foldl (fun a b => a * 256 + b) 0

/-- Big-endian byte list of width w for a natural number, as produced by
to_be_bytes on the unsigned bit pattern. -/
def toBE : Nat → Nat → List Nat
  | 0, _ => []
  | w + 1, n => toBE w (n / 256) ++ [n % 256]

/-- Reinterpretation of an unsigned 16-bit pattern as an i16, used when the
source reads with read_be at type i16. -/
def toI16 (n : Nat) : Int := if n < 32768 then (n : Int) else (n : Int) - 65536

/-- Outcome classification for the reading paths.  panic covers assert_eq
failures, Option::unwrap on None and todo; eof covers an io UnexpectedEof
from Cursor reads; badMagic covers a binrw magic mismatch. -/
inductive PErr where
  | panic
  | eof
  | badMagic
deriving DecidableEq, Repr

/-- TypeKind from src/sdb.rs (discriminants 0,1,2,3,5,6,7,8,9,11,0x10,0x11,0x17). -/
inductive TypeKind where
  | bool | int | byte | word | dword | real | time | string | array | data | uint | udint
  | pointer
deriving DecidableEq, Repr

/-- TypeInfo handle with its descriptor payload inlined (see file header).
scalar covers descriptors whose payload is None or Pointer, arrayOf those
with an Array payload (element descriptor plus raw (lo, hi) dimension pairs),
structOf those with a Struct payload (member name and descriptor). -/
inductive TypeInfo where
  | scalar (kind : TypeKind) (size : Nat)
  | arrayOf (kind : TypeKind) (size : Nat) (elem : TypeInfo) (dims : List (Nat × Nat))
  | structOf (kind : TypeKind) (size : Nat) (members : List (String × TypeInfo))
deriving Repr

/-- Accessor TypeInfo::kind. -/
def TypeInfo.kind : TypeInfo → TypeKind
  | .scalar k _ => k
  | .arrayOf k _ _ _ => k
  | .structOf k _ _ => k

/-- Accessor TypeInfo::response_len, the type_size field of the descriptor. -/
def TypeInfo.response_len : TypeInfo → Nat
  | .scalar _ s => s
  | .arrayOf _ s _ _ => s
  | .structOf _ s _ => s

/-- Dimension computation of TypeInfo::array_info: dims starts as [0, 0] and
entry d becomes hi - lo + 1 for each stored pair.  The SDB format carries at
most two pairs (a third would make the source index out of bounds). -/
def arrayDims : List (Nat × Nat) → Nat × Nat
  | [] => (0, 0)
  | [(lo, hi)] => (hi - lo + 1, 0)
  | (lo, hi) :: (lo2, hi2) :: _ => (hi - lo + 1, hi2 - lo2 + 1)

/-- Accessor TypeInfo::array_info. -/
def TypeInfo.array_info : TypeInfo → Option (TypeInfo × Nat × Nat)
  | .arrayOf _ _ elem dims => some (elem, arrayDims dims)
  | _ => none

/-- Accessor TypeInfo::struct_info. -/
def TypeInfo.struct_info : TypeInfo → Option (List (String × TypeInfo))
  | .structOf _ _ members => some members
  | _ => none

/-- Value from src/opc_values.rs; float stores the 32 raw bits read from the
wire and string stores the bytes before CP1252 decoding (see file header). -/
inductive Value where
  | array (xs : List Value)
  | matrix (xss : List (List Value))
  | bool (b : Bool)
  | int (i : Int)
  | float (bits : Nat)
  | string (bytes : List Nat)
  | struct (fields : List (String × Value))
deriving Repr

/-- Reading one byte from a Cursor over a byte slice at a given position. -/
def readByte (data : List Nat) (pos : Nat) : Except PErr Nat :=
  if pos < data.length then .ok (data.getD pos 0) else .error .eof

/-- Reading n bytes from a Cursor over a byte slice; read_exact fails with
UnexpectedEof when fewer than n bytes remain. -/
def readBytes (data : List Nat) (pos n : Nat) : Except PErr (List Nat) :=
  if pos + n ≤ data.length then .ok ((data.drop pos).take n) else .error .eof

/-- Body of the int! macro inside Value::parse_param: read_len is
param.response_len(); assert_eq!(read_len, size_of::<ty>()) panics on
mismatch; then when read_len > 1 and the entry position is odd the cursor is
moved one byte forward, and the integer is read big-endian. -/
def parse_int (data : List Nat) (start_pos read_len width : Nat) (signed : Bool) :
    Except PErr (Value × Nat) :=
  if read_len ≠ width then .error .panic
  else
    let pos := if read_len > 1 ∧ start_pos % 2 = 1 then start_pos + 1 else start_pos
    match readBytes data pos width with
    | .error e => .error e
    | .ok bs => .ok (.int (if signed then toI16 (fromBE bs) else (fromBE bs : Int)), pos + width)

mutual

/-- Value::parse_param from src/opc_values.rs.  The cursor is the pair
(data, pos); the result carries the value and the final cursor position.
Branches follow the source match on param.kind(): Array and Data unwrap
array_info / struct_info (panic when the payload does not match), Bool reads
one byte without alignment, the integer kinds go through the int! macro,
Real aligns to 2 and reads an f32, Time reads as u32, String reads
response_len bytes and truncates at the first NUL. -/
def parse_param (data : List Nat) (pos : Nat) (t : TypeInfo) : Except PErr (Value × Nat) :=
  match t.kind with
  | .array =>
    match t with
    | .arrayOf _ _ elem dims =>
      let d := arrayDims dims
      if d.2 = 0 then
        match parse_arr data pos d.1 elem with
        | .error e => .error e
        | .ok (vs, p2) => .ok (.array vs, p2)
      else
        match parse_matrix data pos d.1 d.2 elem with
        | .error e => .error e
        | .ok (vss, p2) => .ok (.matrix vss, p2)
    | _ => .error .panic
  | .data =>
    match t with
    | .structOf _ _ members =>
      match parse_members data pos members with
      | .error e => .error e
      | .ok (fields, p2) => .ok (.struct fields, p2)
    | _ => .error .panic
  | .bool =>
    match readByte data pos with
    | .error e => .error e
    | .ok b => .ok (.bool (b ≠ 0), pos + 1)
  | .int => parse_int data pos t.response_len 2 true
  | .byte => parse_int data pos t.response_len 1 false
  | .word => parse_int data pos t.response_len 2 false
  | .uint => parse_int data pos t.response_len 2 false
  | .dword => parse_int data pos t.response_len 4 false
  | .udint => parse_int data pos t.response_len 4 false
  | .pointer => parse_int data pos t.response_len 4 false
  | .real =>
    let pos2 := if pos % 2 = 1 then pos + 1 else pos
    match readBytes data pos2 4 with
    | .error e => .error e
    | .ok bs => .ok (.float (fromBE bs), pos2 + 4)
  | .time => parse_int data pos t.response_len 4 false
  | .string =>
    match readBytes data pos t.response_len with
    | .error e => .error e
    | .ok v =>
      let v2 := match v.findIdx? (fun b => b == 0) with
        | some i => v.take i
        | none => v
      .ok (.string v2, pos + t.response_len)
termination_by (sizeOf t, 0)

/-- Element loop of the [len, 0] array branch of Value::parse_param. -/
def parse_arr (data : List Nat) (pos n : Nat) (elem : TypeInfo) :
    Except PErr (List Value × Nat) :=
  match n with
  | 0 => .ok ([], pos)
  | n + 1 =>
    match parse_param data pos elem with
    | .error e => .error e
    | .ok (v, pos2) =>
      match parse_arr data pos2 n elem with
      | .error e => .error e
      | .ok (vs, pos3) => .ok (v :: vs, pos3)
termination_by (sizeOf elem, n + 1)

/-- Row loop of the [a, b] matrix branch of Value::parse_param; the outer
dimension is iterated first. -/
def parse_matrix (data : List Nat) (pos a b : Nat) (elem : TypeInfo) :
    Except PErr (List (List Value) × Nat) :=
  match a with
  | 0 => .ok ([], pos)
  | a + 1 =>
    match parse_arr data pos b elem with
    | .error e => .error e
    | .ok (row, pos2) =>
      match parse_matrix data pos2 a b elem with
      | .error e => .error e
      | .ok (rows, pos3) => .ok (row :: rows, pos3)
termination_by (sizeOf elem, a + b + 2)

/-- Member loop of the Data branch of Value::parse_param. -/
def parse_members (data : List Nat) (pos : Nat) (ms : List (String × TypeInfo)) :
    Except PErr (List (String × Value) × Nat) :=
  match ms with
  | [] => .ok ([], pos)
  | (name, mt) :: rest =>
    match parse_param data pos mt with
    | .error e => .error e
    | .ok (v, pos2) =>
      match parse_members data pos2 rest with
      | .error e => .error e
      | .ok (fs, pos3) => .ok ((name, v) :: fs, pos3)
termination_by (sizeOf ms, 0)

end

/-- Value::parse: a fresh cursor over the byte slice, then parse_param. -/
def Value.parse (data : List Nat) (t : TypeInfo) : Except PErr (Value × Nat) :=
  parse_param data 0 t

/-- Encoding failures of src/opc_values.rs.  outOfRange is the anyhow error
produced when try_into rejects the integer (message: Int did not fit in OPC
size); cantEncode the bail branches of opc_encode and impl_enc_int;
sliceTooBig the bail for a slice longer than the parameter; wrongKind the
bail when a byte slice targets a non String descriptor; floatTodo the todo
panic of the Float arm. -/
inductive EncErr where
  | outOfRange
  | cantEncode
  | sliceTooBig
  | wrongKind
  | floatTodo
deriving DecidableEq, Repr

/-- impl_enc_int instantiated at i64, the integer type held by Value::Int.
try_into range-checks against the destination width; to_be_bytes then emits
the big-endian two-complement pattern. -/
def opc_encode_int (i : Int) (desc : TypeInfo) : Except EncErr (List Nat) :=
  match desc.kind with
  | .byte => if 0 ≤ i ∧ i ≤ 255 then .ok (toBE 1 i.toNat) else .error .outOfRange
  | .int =>
    if -32768 ≤ i ∧ i ≤ 32767 then .ok (toBE 2 (i % 65536).toNat) else .error .outOfRange
  | .word => if 0 ≤ i ∧ i ≤ 65535 then .ok (toBE 2 i.toNat) else .error .outOfRange
  | .uint => if 0 ≤ i ∧ i ≤ 65535 then .ok (toBE 2 i.toNat) else .error .outOfRange
  | .dword =>
    if 0 ≤ i ∧ i ≤ 4294967295 then .ok (toBE 4 i.toNat) else .error .outOfRange
  | .udint =>
    if 0 ≤ i ∧ i ≤ 4294967295 then .ok (toBE 4 i.toNat) else .error .outOfRange
  | _ => .error .cantEncode

/-- EncodeOpcValue for byte slices: only String descriptors accept a slice;
a slice longer than response_len is rejected, otherwise the slice is
NUL-padded to response_len by Vec::resize. -/
def opc_encode_bytes (s : List Nat) (desc : TypeInfo) : Except EncErr (List Nat) :=
  if desc.kind = .string then
    if s.length > desc.response_len then .error .sliceTooBig
    else .ok (s ++ List.replicate (desc.response_len - s.length) 0)
  else .error .wrongKind

/-- EncodeOpcValue for Value references.  A Bool against a Bool descriptor
becomes one byte; Int delegates to the i64 instance; Float hits todo;
String encodes through CP1252 (a left inverse of the decode applied when the
value was parsed, so the stored bytes re-emerge) and then the slice
instance; every other combination falls through to the bail. -/
def Value.opc_encode (v : Value) (desc : TypeInfo) : Except EncErr (List Nat) :=
  match v with
  | .bool b => if desc.kind = .bool then .ok [if b then 1 else 0] else .error .cantEncode
  | .int i => opc_encode_int i desc
  | .float _ => .error .floatTodo
  | .string s => opc_encode_bytes s desc
  | _ => .error .cantEncode

/-- PacketCCHeader from src/packets.rs with its seven recorded fields; the
leading magic 0xCCCC0001 is implicit in the binrw attribute. -/
structure PacketCCHeader where
  u16_zero : Nat
  payload_len : Nat
  u64_8_f : Nat
  one_if_data_poll_maybe : Nat
  u8_14 : Nat
  len2 : Nat
  b17 : Nat
deriving DecidableEq, Repr

/-- PacketCCHeader::new_cmd: all zero except b17 = 0x23. -/
def PacketCCHeader.new_cmd : PacketCCHeader :=
  { u16_zero := 0, payload_len := 0, u64_8_f := 0, one_if_data_poll_maybe := 0
    u8_14 := 0, len2 := 0, b17 := 0x23 }

/-- Serialization of PacketCCHeader under BinWrite: magic, u16_zero, then
payload_len_wr (replacing the stored payload_len via the bw map), u64_8_f,
one_if_data_poll_maybe, u8_14, payload_len_wr again (replacing len2), b17.
All fields big-endian. -/
def PacketCCHeader.write (h : PacketCCHeader) (payload_len_wr : Nat) : List Nat :=
  toBE 4 0xCCCC0001 ++ toBE 2 h.u16_zero ++ toBE 2 payload_len_wr ++ toBE 8 h.u64_8_f ++
    toBE 4 h.one_if_data_poll_maybe ++ toBE 1 h.u8_14 ++ toBE 2 payload_len_wr ++ toBE 1 h.b17

/-- BinWrite for PacketCC: the header is written with length 0, the body is
appended, and the header is rewritten in place with the measured body
length; the net buffer is header-with-final-length followed by body.  The
conversion of the length to u16 panics (expect) when the body does not fit. -/
def PacketCC.write (hdr : PacketCCHeader) (body : List Nat) : Except PErr (List Nat) :=
  if body.length < 65536 then .ok (hdr.write body.length ++ body)
  else .error .panic

/-- BinRead for PacketCCHeader: four magic bytes checked first (binrw
BadMagic on mismatch), then the seven fields at offsets 4, 6, 8, 16, 20, 21
and 23 of the 24-byte header. -/
def PacketCCHeader.read (data : List Nat) : Except PErr PacketCCHeader :=
  if data.length < 4 then .error .eof
  else if data.take 4 ≠ [0xCC, 0xCC, 0x00, 0x01] then .error .badMagic
  else if data.length < 24 then .error .eof
  else
    .ok { u16_zero := fromBE ((data.drop 4).take 2)
          payload_len := fromBE ((data.drop 6).take 2)
          u64_8_f := fromBE ((data.drop 8).take 8)
          one_if_data_poll_maybe := fromBE ((data.drop 16).take 4)
          u8_14 := data.getD 20 0
          len2 := fromBE ((data.drop 21).take 2)
          b17 := data.getD 23 0 }

/-- Parameter handle reduced to the data consulted by the packet layer:
Parameter::id and Parameter::type_info. -/
structure Parameter where
  id : Nat
  ty : TypeInfo

/-- ParamRead record: bw magic 0x0003 (u16), param_id (u32), response_len (u32). -/
structure ParamRead where
  param_id : Nat
  response_len : Nat
deriving DecidableEq, Repr

/-- ParamsReadQuery payload: params plus the trailing sdb_id; param_count is
a calc field equal to params.len(). -/
structure ParamsReadQuery where
  params : List ParamRead
  sdb_id : Nat
deriving DecidableEq, Repr

/-- ParamsReadQuery::new: one ParamRead per query-set entry, built from
param.id() and param.type_info().response_len(), in order; sdb_id comes
from the Sdb. -/
def ParamsReadQuery.new (sdb_id : Nat) (query_set : List Parameter) : ParamsReadQuery :=
  { params := query_set.map (fun p => ⟨p.id, p.ty.response_len⟩), sdb_id := sdb_id }

/-- Serialization of one ParamRead under BinWrite. -/
def ParamRead.write (p : ParamRead) : List Nat :=
  toBE 2 0x0003 ++ toBE 4 p.param_id ++ toBE 4 p.response_len

/-- Serialization of ParamsReadQuery under BinWrite: bw magic 0x2e00, the
u32 param count, the ParamRead records, the u32 sdb_id; all big-endian. -/
def ParamsReadQuery.write (q : ParamsReadQuery) : List Nat :=
  toBE 2 0x2e00 ++ toBE 4 q.params.length ++ q.params.flatMap ParamRead.write ++
    toBE 4 q.sdb_id

/-- ParamQuerySetBuilder::into_query_packet: PacketCC::new (command header,
b17 = 0x23) around ParamsReadQuery::new, then one_if_data_poll_maybe set to
1; serialized by PacketCC.write. -/
def into_query_packet (sdb_id : Nat) (query_set : List Parameter) : Except PErr (List Nat) :=
  PacketCC.write { PacketCCHeader.new_cmd with one_if_data_poll_maybe := 1 }
    (ParamsReadQuery.new sdb_id query_set).write

/-- parse_dyn_payload from src/packets.rs, cursor passed as the not yet
consumed byte list: for each parameter one marker byte is read and checked
against 1 by assert_eq (panic on mismatch), then Value::read_options copies
exactly response_len bytes into a fresh buffer and runs Value::parse on it,
so the per-value cursor restarts at zero. -/
def parse_dyn_payload (data : List Nat) (params : List Parameter) :
    Except PErr (List Value × List Nat) :=
  match params with
  | [] => .ok ([], data)
  | p :: rest =>
    match data with
    | [] => .error .eof
    | one :: data2 =>
      if one ≠ 1 then .error .panic
      else
        let n := p.ty.response_len
        if n ≤ data2.length then
          match Value.parse (data2.take n) p.ty with
          | .error e => .error e
          | .ok (v, _) =>
            match parse_dyn_payload (data2.drop n) rest with
            | .error e => .error e
            | .ok (vs, rem) => .ok (v :: vs, rem)
        else .error .eof

/-- SdbDownload response payload (cc_payloads of src/packets.rs): the
continues word decoded to a Bool (0 = last packet, 1 = more to come) and the
chunk bytes. -/
structure SdbDownload where
  continues : Bool
  sdb_part : List Nat

/-- Failure modes of the download loop: noResponse models a failing read on
the socket once the server has nothing further to deliver, tooManyPackets
the bail after more than 1000 received packets. -/
inductive DlErr where
  | noResponse
  | tooManyPackets
deriving DecidableEq, Repr

/-- download_sbd from src/plc_connection.rs, with the connection abstracted
to the list of SdbDownload payloads the server would deliver to successive
receive_response calls, and the sink file abstracted to the list of
write_all calls.  Loop body in source order: receive a response (error when
none is left), write the chunk to the sink, increment pkt_cnt, send the 66
ack, bail above 1000 packets, break when r.payload.continues holds,
otherwise send the continue-download query and loop. -/
def download_sbd (responses : List SdbDownload) (pkt_cnt : Nat) (sink : List (List Nat)) :
    Except DlErr (List (List Nat)) :=
  match responses with
  | [] => .error .noResponse
  | r :: rest =>
    let sink2 := sink ++ [r.sdb_part]
    let cnt2 := pkt_cnt + 1
    if cnt2 > 1000 then .error .tooManyPackets
    else if r.continues then .ok sink2
    else download_sbd rest cnt2 sink2

/-- Width in bytes and signedness of the native integer type each integer
TypeKind is read with inside Value::parse_param: Int reads i16, Byte u8,
Word and Uint u16, Dword, Udint and Pointer u32, Time u32. -/
def intWidth : TypeKind → Option (Nat × Bool)
  | .int => some (2, true)
  | .byte => some (1, false)
  | .word => some (2, false)
  | .uint => some (2, false)
  | .dword => some (4, false)
  | .udint => some (4, false)
  | .pointer => some (4, false)
  | .time => some (4, false)
  | _ => none

/-- Range accepted by the try_into conversion of impl_enc_int from i64 to
the destination integer type of each encodable kind. -/
def intInRange (k : TypeKind) (i : Int) : Bool :=
  match k with
  | .byte => decide (0 ≤ i ∧ i ≤ 255)
  | .int => decide (-32768 ≤ i ∧ i ≤ 32767)
  | .word => decide (0 ≤ i ∧ i ≤ 65535)
  | .uint => decide (0 ≤ i ∧ i ≤ 65535)
  | .dword => decide (0 ≤ i ∧ i ≤ 4294967295)
  | .udint => decide (0 ≤ i ∧ i ≤ 4294967295)
  | _ => false

/-- Modelled from the spec wording of claim C3: the byte string with its
trailing NUL bytes stripped.  This is the comparator the spec predicts for
the string decode result; the code itself truncates at the first NUL. -/
def specStripTrailingNuls (s : List Nat) : List Nat :=
  (s.reverse.dropWhile (fun b => b == 0)).reverse

/-! Basic facts about the big-endian byte conversions. -/

lemma toBE_length (w n : Nat) : (toBE w n).length = w := by
  induction w generalizing n with
  | zero => simp [toBE]
  | succ w ih => simp [toBE, ih]

lemma foldl_fromBE (l : List Nat) (a : Nat) :
    l.foldl (fun x b => x * 256 + b) a = a * 256 ^ l.length + fromBE l := by
  induction l generalizing a with
  | nil => simp [fromBE]
  | cons b l ih =>
    simp only [List.foldl_cons, List.length_cons, fromBE]
    rw [ih]
    have h0 : (0 : Nat) * 256 + b = b := by omega
    rw [h0, ih b]
    ring

lemma fromBE_append (l1 l2 : List Nat) :
    fromBE (l1 ++ l2) = fromBE l1 * 256 ^ l2.length + fromBE l2 := by
  unfold fromBE
  rw [List.foldl_append]
  exact foldl_fromBE l2 _

lemma fromBE_toBE (w n : Nat) : fromBE (toBE w n) = n % 256 ^ w := by
  induction w generalizing n with
  | zero => simp [toBE, fromBE, Nat.mod_one]
  | succ w ih =>
    rw [toBE, fromBE_append, ih]
    have hfb : fromBE [n % 256] = n % 256 := by simp [fromBE]
    have hlen : ([n % 256] : List Nat).length = 1 := rfl
    rw [hfb, hlen]
    have hpow : 256 ^ (w + 1) = 256 * 256 ^ w := by rw [pow_succ]; ring
    rw [hpow]
    have hdiv : n % (256 * 256 ^ w) / 256 = n / 256 % 256 ^ w :=
      Nat.mod_mul_right_div_self n 256 (256 ^ w)
    have hmod : n % (256 * 256 ^ w) % 256 = n % 256 :=
      Nat.mod_mod_of_dvd n ⟨256 ^ w, rfl⟩
    have hdm := Nat.div_add_mod (n % (256 * 256 ^ w)) 256
    omega

/-! Dispatch of Value::parse_param on the integer kinds. -/

lemma parse_param_int_kind (data : List Nat) (pos : Nat) (k : TypeKind) (sz w : Nat)
    (s : Bool) (h : intWidth k = some (w, s)) :
    parse_param data pos (.scalar k sz) = parse_int data pos sz w s := by
  cases k <;> simp_all [intWidth, parse_param, TypeInfo.kind, TypeInfo.response_len]

/-- C1.  The SDB download loop of src/plc_connection.rs evaluated on a
server script of one chunk flagged continues = 1 followed by one chunk
flagged continues = 0 (the shape the claim quantifies over, at N = 1): the
sink receives exactly one write holding only the first chunk, because the
loop breaks when continues holds, and the result differs from the two
writes the claim predicts.  This contradicts the doc comment on
SdbDownload::continues (0 means last packet) and the parallel loop in
src/main.rs, which stops when continues != 1. -/
theorem c1_download_sbd_inverted_stop :
    download_sbd [⟨true, [0xAA]⟩, ⟨false, [0xBB]⟩] 0 [] = .ok [[0xAA]] ∧
      ([[0xAA]] : List (List Nat)) ≠ [[0xAA], [0xBB]] :=
  ⟨rfl, by decide⟩

/-- C5 counterexample.  The frame built for a single-parameter read of id
0x4787C with expected length 4 and sdb_id 0x00025334 carries payload_len
0x0014 (the 20-byte body including the 2e 00 opcode), not the 0x0010 the
claim states. -/
theorem c5_payload_len_counterexample :
    into_query_packet 0x25334 [⟨0x4787C, .scalar .real 4⟩] =
      .ok [0xCC, 0xCC, 0x00, 0x01, 0x00, 0x00, 0x00, 0x14,
           0, 0, 0, 0, 0, 0, 0, 0,
           0x00, 0x00, 0x00, 0x01, 0x00, 0x00, 0x14, 0x23,
           0x2e, 0x00, 0x00, 0x00, 0x00, 0x01, 0x00, 0x03,
           0x00, 0x04, 0x78, 0x7C, 0x00, 0x00, 0x00, 0x04,
           0x00, 0x02, 0x53, 0x34] ∧
      ([0x00, 0x14] : List Nat) ≠ [0x00, 0x10] :=
  ⟨rfl, by decide⟩

/-- C5 amended.  Same frame as the claim but with payload_len = 0x0014:
header magic CC CC 00 01, payload_len and len2 both 0x0014, is_poll = 1,
role byte 0x23, and the 20-byte body
2e 00 00 00 00 01 00 03 00 04 78 7C 00 00 00 04 00 02 53 34. -/
theorem c5_single_param_read_frame :
    into_query_packet 0x25334 [⟨0x4787C, .scalar .real 4⟩] =
      .ok ([0xCC, 0xCC, 0x00, 0x01] ++ [0x00, 0x00] ++ [0x00, 0x14] ++
           [0, 0, 0, 0, 0, 0, 0, 0] ++ [0x00, 0x00, 0x00, 0x01] ++ [0x00] ++
           [0x00, 0x14] ++ [0x23] ++
           [0x2e, 0x00, 0x00, 0x00, 0x00, 0x01, 0x00, 0x03,
            0x00, 0x04, 0x78, 0x7C, 0x00, 0x00, 0x00, 0x04,
            0x00, 0x02, 0x53, 0x34]) := by
  rfl

/-- C9.  Encoding a byte string against a String descriptor of width W
succeeds exactly when the string is no longer than W, in which case the
result is the string NUL-padded to exactly W bytes; in particular the
CP1252 bytes of User1234 against a 16-byte String descriptor give
55 73 65 72 31 32 33 34 followed by eight NUL bytes. -/
theorem c9_string_encode_padding :
    (∀ (s : List Nat) (W : Nat),
      ((opc_encode_bytes s (.scalar .string W)).isOk = true ↔ s.length ≤ W) ∧
      (s.length ≤ W →
        opc_encode_bytes s (.scalar .string W) =
          .ok (s ++ List.replicate (W - s.length) 0) ∧
        (s ++ List.replicate (W - s.length) 0).length = W)) ∧
    opc_encode_bytes [0x55, 0x73, 0x65, 0x72, 0x31, 0x32, 0x33, 0x34] (.scalar .string 16) =
      .ok [0x55, 0x73, 0x65, 0x72, 0x31, 0x32, 0x33, 0x34, 0, 0, 0, 0, 0, 0, 0, 0] := by
  refine ⟨fun s W => ⟨?_, fun h => ⟨?_, ?_⟩⟩, rfl⟩
  · by_cases h : s.length ≤ W
    · have hgt : ¬ s.length > W := by omega
      simp [opc_encode_bytes, TypeInfo.kind, TypeInfo.response_len, hgt, Except.isOk,
        Except.toBool, h]
    · have hgt : s.length > W := by omega
      simp [opc_encode_bytes, TypeInfo.kind, TypeInfo.response_len, hgt, Except.isOk,
        Except.toBool, h]
  · have hgt : ¬ s.length > W := by omega
    simp [opc_encode_bytes, TypeInfo.kind, TypeInfo.response_len, hgt]
  · simp only [List.length_append, List.length_replicate]
    omega

/-- C9 witness, instantiating the padding law at a string shorter than the
width and the failure direction at one longer than the width. -/
theorem c9_string_encode_padding_witness :
    (opc_encode_bytes [7] (.scalar .string 3) = .ok ([7] ++ List.replicate (3 - 1) 0)) ∧
      ((opc_encode_bytes [1, 2, 3] (.scalar .string 2)).isOk = true ↔
        ([1, 2, 3] : List Nat).length ≤ 2) :=
  ⟨((c9_string_encode_padding.1 [7] 3).2 (by decide)).1,
    (c9_string_encode_padding.1 [1, 2, 3] 2).1⟩

/-- C10.  On an integer-scalar descriptor Value::parse_param panics (via
the assert_eq of the int! macro) exactly when the descriptor wire size
differs from the width of the native read type (1 for Byte, 2 for Int,
Word, Uint, 4 for Dword, Udint, Pointer, Time); when the sizes agree the
parse never panics, returning a value or the recoverable eof error. -/
theorem c10_parse_asserts_wire_size :
    ∀ (k : TypeKind) (w : Nat) (s : Bool) (sz : Nat) (data : List Nat) (pos : Nat),
      intWidth k = some (w, s) →
      (sz ≠ w → parse_param data pos (.scalar k sz) = .error .panic) ∧
      (sz = w → parse_param data pos (.scalar k sz) ≠ .error .panic) := by
  intro k w s sz data pos h
  have hd := parse_param_int_kind data pos k sz w s h
  constructor
  · intro hne
    rw [hd]
    simp [parse_int, hne]
  · intro he
    rw [hd]
    subst he
    simp only [parse_int, ne_eq, not_true_eq_false, if_false]
    simp only [readBytes]
    intro hcontra
    split at hcontra
    · rename_i e heq
      split at heq <;> split at heq <;> simp_all
    · simp_all

/-- C10 witness: a Byte descriptor with wire size 2 panics on any input,
while the well-formed wire size 1 does not panic. -/
theorem c10_parse_asserts_wire_size_witness :
    parse_param [0, 0] 0 (.scalar .byte 2) = .error .panic ∧
      parse_param [5] 0 (.scalar .byte 1) ≠ .error .panic :=
  ⟨(c10_parse_asserts_wire_size .byte 1 false 2 [0, 0] 0 rfl).1 (by decide),
    (c10_parse_asserts_wire_size .byte 1 false 1 [5] 0 rfl).2 rfl⟩

/-! Round-trip support lemmas for the scalar encode and parse paths. -/

lemma parse_int_exact (bs : List Nat) (w : Nat) (s : Bool) (h : bs.length = w) :
    parse_int bs 0 w w s =
      .ok (.int (if s then toI16 (fromBE bs) else (fromBE bs : Int)), w) := by
  subst h
  simp [parse_int, readBytes]

lemma roundtrip_unsigned (k : TypeKind) (w : Nat) (hk : intWidth k = some (w, false))
    (i : Int) (h0 : 0 ≤ i) (hlt : i.toNat < 256 ^ w) :
    Value.parse (toBE w i.toNat) (.scalar k w) = .ok (.int i, w) := by
  unfold Value.parse
  rw [parse_param_int_kind _ 0 k w w false hk, parse_int_exact _ _ _ (toBE_length _ _)]
  have hv : ((fromBE (toBE w i.toNat)) : Int) = i := by
    rw [fromBE_toBE, Nat.mod_eq_of_lt hlt]
    omega
  simp [hv]

lemma parse_i16_toBE (i : Int) (h1 : -32768 ≤ i) (h2 : i ≤ 32767) :
    Value.parse (toBE 2 (i % 65536).toNat) (.scalar .int 2) = .ok (.int i, 2) := by
  unfold Value.parse
  rw [parse_param_int_kind _ 0 .int 2 2 true rfl, parse_int_exact _ _ _ (toBE_length _ _)]
  have hv : toI16 (fromBE (toBE 2 (i % 65536).toNat)) = i := by
    rw [fromBE_toBE]
    unfold toI16
    split <;> omega
  simp [hv]

/-- C2 amended.  For the scalar kinds Byte, Int, Word, Uint, Dword and
Udint and every i64 value inside the range of the destination width,
opc_encode produces the big-endian bytes and Value::parse recovers the
value; outside the range encoding fails with the out-of-range error rather
than truncating.  Bool round-trips through its one-byte encoding.  The
claim as frozen also listed Time, but the impl_enc_int match has no Time
arm, so every integer fails to encode against a Time descriptor (final
conjunct): Time had to be removed from the round-trip list. -/
theorem c2_scalar_roundtrip :
    (∀ (k : TypeKind) (i : Int) (w : Nat) (s : Bool),
      k ∈ ([.byte, .int, .word, .uint, .dword, .udint] : List TypeKind) →
      intWidth k = some (w, s) →
      (intInRange k i = true →
        ∃ bs, Value.opc_encode (.int i) (.scalar k w) = .ok bs ∧
          Value.parse bs (.scalar k w) = .ok (.int i, w)) ∧
      (intInRange k i = false →
        Value.opc_encode (.int i) (.scalar k w) = .error .outOfRange)) ∧
    (∀ b : Bool,
      Value.opc_encode (.bool b) (.scalar .bool 1) = .ok [if b then 1 else 0] ∧
      Value.parse [if b then 1 else 0] (.scalar .bool 1) = .ok (.bool b, 1)) ∧
    (∀ i : Int, Value.opc_encode (.int i) (.scalar .time 4) = .error .cantEncode) := by
  refine ⟨?_, ?_, ?_⟩
  · intro k i w s hk hw
    fin_cases hk
    · simp only [intWidth] at hw
      cases hw
      constructor
      · intro hr
        simp only [intInRange, decide_eq_true_eq] at hr
        refine ⟨toBE 1 i.toNat, ?_, ?_⟩
        · simp [Value.opc_encode, opc_encode_int, TypeInfo.kind, hr.1, hr.2]
        · exact roundtrip_unsigned .byte 1 rfl i hr.1 (by rw [pow_one]; omega)
      · intro hr
        simp only [intInRange, decide_eq_false_iff_not] at hr
        simp [Value.opc_encode, opc_encode_int, TypeInfo.kind, hr]
    · simp only [intWidth] at hw
      cases hw
      constructor
      · intro hr
        simp only [intInRange, decide_eq_true_eq] at hr
        refine ⟨toBE 2 (i % 65536).toNat, ?_, ?_⟩
        · simp [Value.opc_encode, opc_encode_int, TypeInfo.kind, hr.1, hr.2]
        · exact parse_i16_toBE i hr.1 hr.2
      · intro hr
        simp only [intInRange, decide_eq_false_iff_not] at hr
        simp [Value.opc_encode, opc_encode_int, TypeInfo.kind, hr]
    · simp only [intWidth] at hw
      cases hw
      constructor
      · intro hr
        simp only [intInRange, decide_eq_true_eq] at hr
        refine ⟨toBE 2 i.toNat, ?_, ?_⟩
        · simp [Value.opc_encode, opc_encode_int, TypeInfo.kind, hr.1, hr.2]
        · exact roundtrip_unsigned .word 2 rfl i hr.1
            (by rw [show 256 ^ 2 = 65536 by norm_num]; omega)
      · intro hr
        simp only [intInRange, decide_eq_false_iff_not] at hr
        simp [Value.opc_encode, opc_encode_int, TypeInfo.kind, hr]
    · simp only [intWidth] at hw
      cases hw
      constructor
      · intro hr
        simp only [intInRange, decide_eq_true_eq] at hr
        refine ⟨toBE 2 i.toNat, ?_, ?_⟩
        · simp [Value.opc_encode, opc_encode_int, TypeInfo.kind, hr.1, hr.2]
        · exact roundtrip_unsigned .uint 2 rfl i hr.1
            (by rw [show 256 ^ 2 = 65536 by norm_num]; omega)
      · intro hr
        simp only [intInRange, decide_eq_false_iff_not] at hr
        simp [Value.opc_encode, opc_encode_int, TypeInfo.kind, hr]
    · simp only [intWidth] at hw
      cases hw
      constructor
      · intro hr
        simp only [intInRange, decide_eq_true_eq] at hr
        refine ⟨toBE 4 i.toNat, ?_, ?_⟩
        · simp [Value.opc_encode, opc_encode_int, TypeInfo.kind, hr.1, hr.2]
        · exact roundtrip_unsigned .dword 4 rfl i hr.1
            (by rw [show 256 ^ 4 = 4294967296 by norm_num]; omega)
      · intro hr
        simp only [intInRange, decide_eq_false_iff_not] at hr
        simp [Value.opc_encode, opc_encode_int, TypeInfo.kind, hr]
    · simp only [intWidth] at hw
      cases hw
      constructor
      · intro hr
        simp only [intInRange, decide_eq_true_eq] at hr
        refine ⟨toBE 4 i.toNat, ?_, ?_⟩
        · simp [Value.opc_encode, opc_encode_int, TypeInfo.kind, hr.1, hr.2]
        · exact roundtrip_unsigned .udint 4 rfl i hr.1
            (by rw [show 256 ^ 4 = 4294967296 by norm_num]; omega)
      · intro hr
        simp only [intInRange, decide_eq_false_iff_not] at hr
        simp [Value.opc_encode, opc_encode_int, TypeInfo.kind, hr]
  · intro b
    constructor
    · cases b <;> rfl
    · cases b <;> simp [Value.parse, parse_param, TypeInfo.kind, readByte]
  · intro i
    rfl

/-- C2 witness: the round trip at Word value 513 and Int value -2, and the
out-of-range rejection at Word value 70000. -/
theorem c2_scalar_roundtrip_witness :
    (∃ bs, Value.opc_encode (.int 513) (.scalar .word 2) = .ok bs ∧
      Value.parse bs (.scalar .word 2) = .ok (.int 513, 2)) ∧
    (∃ bs, Value.opc_encode (.int (-2)) (.scalar .int 2) = .ok bs ∧
      Value.parse bs (.scalar .int 2) = .ok (.int (-2), 2)) ∧
    Value.opc_encode (.int 70000) (.scalar .word 2) = .error .outOfRange :=
  ⟨(c2_scalar_roundtrip.1 .word 513 2 false (by decide) rfl).1 (by decide),
    (c2_scalar_roundtrip.1 .int (-2) 2 true (by decide) rfl).1 (by decide),
    (c2_scalar_roundtrip.1 .word 70000 2 false (by decide) rfl).2 (by decide)⟩

/-- C2 counterexample for the claim as frozen: Time is listed among the
round-tripping scalar kinds, but encoding the in-range value 0 against a
Time descriptor fails outright (the impl_enc_int match falls through to the
bail), so no bytes are produced to decode. -/
theorem c2_time_not_encodable :
    Value.opc_encode (.int 0) (.scalar .time 4) = .error .cantEncode := rfl

/-! String parsing support lemmas. -/

lemma truncAtNul_eq (v : List Nat) :
    (match v.findIdx? (fun b => b == 0) with
      | some j => v.take j
      | none => v) = v.takeWhile (fun b => b != 0) := by
  induction v with
  | nil => rfl
  | cons a v ih =>
    rw [List.findIdx?_cons]
    by_cases ha : a = 0
    · subst ha
      simp [List.takeWhile_cons]
    · have hpa : (a == 0) = false := by simp [ha]
      rw [if_neg (by simp [hpa]), List.findIdx?_succ, List.takeWhile_cons]
      simp only [bne_iff_ne, ne_eq, ha, not_false_eq_true, if_true]
      cases hfi : v.findIdx? (fun b => b == 0) with
      | none =>
        have ih2 : v = List.takeWhile (fun b => b != 0) v := by
          rw [hfi] at ih
          exact ih
        show a :: v = a :: List.takeWhile (fun b => b != 0) v
        rw [← ih2]
      | some j =>
        have ih2 : List.take j v = List.takeWhile (fun b => b != 0) v := by
          rw [hfi] at ih
          exact ih
        show List.take (j + 1) (a :: v) = a :: List.takeWhile (fun b => b != 0) v
        rw [List.take_succ_cons, ih2]

lemma takeWhile_append_replicate (s : List Nat) (k : Nat) :
    (s ++ List.replicate k 0).takeWhile (fun b => b != 0) =
      s.takeWhile (fun b => b != 0) := by
  induction s with
  | nil =>
    cases k with
    | zero => rfl
    | succ k => simp [List.replicate_succ, List.takeWhile_cons]
  | cons a s ih =>
    by_cases ha : a = 0
    · subst ha; simp [List.takeWhile_cons]
    · simp [List.takeWhile_cons, ha, ih]

lemma parse_string (data : List Nat) (W : Nat) (h : data.length = W) :
    Value.parse data (.scalar .string W) =
      .ok (.string (data.takeWhile (fun b => b != 0)), W) := by
  subst h
  unfold Value.parse
  simp only [parse_param, TypeInfo.kind, TypeInfo.response_len, readBytes]
  rw [if_pos (by omega)]
  simp only [List.drop_zero, List.take_length, Nat.zero_add]
  rw [truncAtNul_eq]

/-- C3 counterexample.  For the byte string 41 00 42 (an interior NUL) and
a String descriptor of width 4, encoding NUL-pads to 41 00 42 00 but
Value::parse truncates at the first NUL and returns just 41, while the
claim predicts the string with only trailing NULs stripped, namely
41 00 42 itself. -/
theorem c3_interior_nul_counterexample :
    opc_encode_bytes [65, 0, 66] (.scalar .string 4) = .ok [65, 0, 66, 0] ∧
      Value.parse [65, 0, 66, 0] (.scalar .string 4) = .ok (.string [65], 4) ∧
      specStripTrailingNuls [65, 0, 66] = [65, 0, 66] ∧
      ([65] : List Nat) ≠ [65, 0, 66] := by
  refine ⟨rfl, ?_, rfl, by decide⟩
  rw [parse_string [65, 0, 66, 0] 4 rfl]
  rfl

/-- C3 amended.  For every String descriptor of width W and byte string S
with len(S) at most W, decoding the encoding of S yields the longest
NUL-free front segment of S (S truncated at its first NUL byte); this
equals S with trailing NULs stripped exactly when S has no interior NUL. -/
theorem c3_string_roundtrip :
    ∀ (s : List Nat) (W : Nat), s.length ≤ W →
      opc_encode_bytes s (.scalar .string W) = .ok (s ++ List.replicate (W - s.length) 0) ∧
      Value.parse (s ++ List.replicate (W - s.length) 0) (.scalar .string W) =
        .ok (.string (s.takeWhile (fun b => b != 0)), W) := by
  intro s W h
  constructor
  · have hgt : ¬ s.length > W := by omega
    simp [opc_encode_bytes, TypeInfo.kind, TypeInfo.response_len, hgt]
  · have hlen : (s ++ List.replicate (W - s.length) 0).length = W := by
      simp only [List.length_append, List.length_replicate]
      omega
    rw [parse_string _ _ hlen, takeWhile_append_replicate]

/-- C3 witness: the amended round trip at the NUL-free string 01 02 and
width 4. -/
theorem c3_string_roundtrip_witness :
    opc_encode_bytes [1, 2] (.scalar .string 4) =
        .ok ([1, 2] ++ List.replicate (4 - ([1, 2] : List Nat).length) 0) ∧
      Value.parse ([1, 2] ++ List.replicate (4 - ([1, 2] : List Nat).length) 0)
          (.scalar .string 4) =
        .ok (.string (([1, 2] : List Nat).takeWhile (fun b => b != 0)), 4) :=
  c3_string_roundtrip [1, 2] 4 (by decide)

/-! Alignment support lemma: arrays of Byte elements consume their bytes
with no padding at any starting offset. -/

lemma parse_arr_byte (data : List Nat) (n : Nat) :
    ∀ pos : Nat, pos + n ≤ data.length →
      parse_arr data pos n (.scalar .byte 1) =
        .ok (((data.drop pos).take n).map (fun (b : Nat) => Value.int (b : Int)), pos + n) := by
  induction n with
  | zero => intro pos h; simp [parse_arr]
  | succ n ih =>
    intro pos h
    have hpos : pos < data.length := by omega
    have hdrop : data.drop pos = data[pos] :: data.drop (pos + 1) :=
      List.drop_eq_getElem_cons hpos
    have hrb : readBytes data pos 1 = .ok [data[pos]] := by
      rw [readBytes, if_pos (by omega), hdrop]
      rfl
    have hpi : parse_int data pos 1 1 false = .ok (.int (data[pos] : Nat), pos + 1) := by
      simp [parse_int, hrb, fromBE]
    have ihh := ih (pos + 1) (by omega)
    simp only [parse_arr]
    rw [parse_param_int_kind data pos .byte 1 1 false rfl]
    simp only [hpi, ihh, hdrop, List.take_succ_cons, List.map_cons]
    have harith : pos + 1 + n = pos + (n + 1) := by omega
    rw [harith]

/-- C4.  The alignment rule of Value::parse_param: for every integer scalar
whose native width exceeds one byte, parsing at an odd cursor offset is the
same as parsing one byte further (the pad byte is consumed before the
read); Real follows the same two-byte alignment; an Array of Byte elements
and a Struct with a Byte member perform no re-alignment of their own,
reading their first byte exactly at the entry offset; and on the bytes
AA 00 FF 12 34 00 a Byte followed by a Word parses to AA and FF12, the Word
being read at offset 2 with the final cursor at 4. -/
theorem c4_alignment_rule :
    (∀ (k : TypeKind) (w : Nat) (s : Bool) (data : List Nat) (pos : Nat),
      intWidth k = some (w, s) → 1 < w → pos % 2 = 1 →
      parse_param data pos (.scalar k w) = parse_param data (pos + 1) (.scalar k w)) ∧
    (∀ (sz : Nat) (data : List Nat) (pos : Nat), pos % 2 = 1 →
      parse_param data pos (.scalar .real sz) =
        parse_param data (pos + 1) (.scalar .real sz)) ∧
    (∀ (asz : Nat) (data : List Nat) (pos n : Nat) (dims : List (Nat × Nat)),
      arrayDims dims = (n, 0) → pos + n ≤ data.length →
      parse_param data pos (.arrayOf .array asz (.scalar .byte 1) dims) =
        .ok (.array (((data.drop pos).take n).map (fun (b : Nat) => Value.int (b : Int))),
          pos + n)) ∧
    (∀ (ssz : Nat) (data : List Nat) (pos : Nat) (nm : String) (hpos : pos < data.length),
      parse_param data pos (.structOf .data ssz [(nm, .scalar .byte 1)]) =
        .ok (.struct [(nm, .int (data.get ⟨pos, hpos⟩ : Nat))], pos + 1)) ∧
    parse_param [0xAA, 0x00, 0xFF, 0x12, 0x34, 0x00] 0
        (.structOf .data 6 [("b", .scalar .byte 1), ("w", .scalar .word 2)]) =
      .ok (.struct [("b", .int 0xAA), ("w", .int 0xFF12)], 4) := by
  refine ⟨?_, ?_, ?_, ?_, ?_⟩
  · intro k w s data pos hk hw hodd
    rw [parse_param_int_kind data pos k w w s hk,
      parse_param_int_kind data (pos + 1) k w w s hk]
    have he : (pos + 1) % 2 = 0 := by omega
    simp [parse_int, hw, hodd, he]
  · intro sz data pos hodd
    have he : (pos + 1) % 2 = 0 := by omega
    simp [parse_param, TypeInfo.kind, hodd, he]
  · intro asz data pos n dims hdims hlen
    simp only [parse_param, TypeInfo.kind, hdims]
    rw [parse_arr_byte data n pos hlen]
    simp
  · intro ssz data pos nm hpos
    have hdrop : data.drop pos = data[pos] :: data.drop (pos + 1) :=
      List.drop_eq_getElem_cons hpos
    have hrb : readBytes data pos 1 = .ok [data[pos]] := by
      rw [readBytes, if_pos (by omega), hdrop]
      rfl
    have hpi : parse_int data pos 1 1 false = .ok (.int (data[pos] : Nat), pos + 1) := by
      simp [parse_int, hrb, fromBE]
    simp only [parse_param, TypeInfo.kind, parse_members, TypeInfo.response_len, hpi]
    simp [List.get_eq_getElem]
  · simp [parse_param, parse_members, parse_int, readBytes, readByte, fromBE,
      TypeInfo.kind, TypeInfo.response_len]

/-- C4 witness: the odd-offset law at a Word and at a Real, the
no-realignment law at a Byte array and a Byte struct member starting at an
odd offset. -/
theorem c4_alignment_rule_witness :
    parse_param [0, 1, 2, 3] 1 (.scalar .word 2) =
        parse_param [0, 1, 2, 3] 2 (.scalar .word 2) ∧
      parse_param [9, 9, 9, 9, 9, 9] 3 (.scalar .real 4) =
        parse_param [9, 9, 9, 9, 9, 9] 4 (.scalar .real 4) ∧
      parse_param [7, 8, 9] 1 (.arrayOf .array 2 (.scalar .byte 1) [(1, 2)]) =
        .ok (.array (((([7, 8, 9] : List Nat).drop 1).take 2).map
          (fun (b : Nat) => Value.int (b : Int))), 1 + 2) ∧
      parse_param [7, 8] 1 (.structOf .data 1 [("m", .scalar .byte 1)]) =
        .ok (.struct [("m", .int (([7, 8] : List Nat).get ⟨1, by decide⟩ : Nat))], 1 + 1) :=
  ⟨c4_alignment_rule.1 .word 2 false [0, 1, 2, 3] 1 rfl (by decide) (by decide),
    c4_alignment_rule.2.1 4 [9, 9, 9, 9, 9, 9] 3 (by decide),
    c4_alignment_rule.2.2.1 2 [7, 8, 9] 1 2 [(1, 2)] (by decide) (by decide),
    c4_alignment_rule.2.2.2.1 1 [7, 8] 1 "m" (by decide)⟩

/-- C6.  Writing any CC frame (the body is measured after encoding and
patched into the header, panicking only when it exceeds the u16 range) and
reading the buffer back gives a header whose payload_len equals the number
of bytes past offset 24, whose len2 equals the same value, and whose first
four bytes are the big-endian magic 0xCCCC0001. -/
theorem c6_frame_length_invariant :
    ∀ (hdr : PacketCCHeader) (body : List Nat), body.length < 65536 →
      ∃ frame, PacketCC.write hdr body = .ok frame ∧
        frame.length = 24 + body.length ∧
        frame.take 4 = [0xCC, 0xCC, 0x00, 0x01] ∧
        ∃ h2, PacketCCHeader.read frame = .ok h2 ∧
          h2.payload_len = frame.length - 24 ∧ h2.len2 = body.length := by
  intro hdr body h
  refine ⟨hdr.write body.length ++ body, by simp [PacketCC.write, h], ?_, ?_, ?_⟩
  · simp [PacketCCHeader.write, toBE_length]
    omega
  · simp [PacketCCHeader.write, toBE]
  · have hL : (hdr.write body.length ++ body).length = 24 + body.length := by
      simp [PacketCCHeader.write, toBE_length]
      omega
    have hmagic : (hdr.write body.length ++ body).take 4 = [0xCC, 0xCC, 0x00, 0x01] := by
      simp [PacketCCHeader.write, toBE]
    rw [PacketCCHeader.read, if_neg (by omega), if_neg (by simp [hmagic]),
      if_neg (by omega)]
    refine ⟨_, rfl, ?_, ?_⟩
    · have hpl : (((hdr.write body.length ++ body).drop 6).take 2) =
          [body.length / 256 % 256, body.length % 256] := by
        simp [PacketCCHeader.write, toBE]
      simp only [hpl, fromBE, List.foldl_cons, List.foldl_nil, hL]
      omega
    · have hpl : (((hdr.write body.length ++ body).drop 21).take 2) =
          [body.length / 256 % 256, body.length % 256] := by
        simp [PacketCCHeader.write, toBE]
      simp only [hpl, fromBE, List.foldl_cons, List.foldl_nil]
      omega

/-- C6 witness: the invariant at the command header and the one-byte body
0x11 (the instrument version query). -/
theorem c6_frame_length_invariant_witness :
    ∃ frame, PacketCC.write PacketCCHeader.new_cmd [0x11] = .ok frame ∧
      frame.length = 24 + ([0x11] : List Nat).length ∧
      frame.take 4 = [0xCC, 0xCC, 0x00, 0x01] ∧
      ∃ h2, PacketCCHeader.read frame = .ok h2 ∧
        h2.payload_len = frame.length - 24 ∧ h2.len2 = ([0x11] : List Nat).length :=
  c6_frame_length_invariant PacketCCHeader.new_cmd [0x11] (by decide)

/-- C7.  The query packet built from parameters P1..Pn serializes the
ReadItems (Pi.id, Pi.wire_size) in the same order with the trailing sdb_id,
and parsing the response body against the same parameter list yields, in
order, exactly the value decoded from the i-th per-parameter chunk with the
type descriptor of Pi (expressed by equality with the monadic map of the
per-parameter decoder over the zipped list). -/
theorem c7_query_set_correspondence :
    (∀ (sdb_id : Nat) (qs : List Parameter),
      (ParamsReadQuery.new sdb_id qs).write =
        toBE 2 0x2e00 ++ toBE 4 qs.length ++
          qs.flatMap (fun p => toBE 2 0x0003 ++ toBE 4 p.id ++ toBE 4 p.ty.response_len) ++
          toBE 4 sdb_id) ∧
    (∀ (ps : List Parameter) (chunks : List (List Nat)),
      List.Forall₂ (fun (c : List Nat) (p : Parameter) => c.length = p.ty.response_len)
        chunks ps →
      parse_dyn_payload ((chunks.map (fun c => 1 :: c)).flatten) ps =
        ((ps.zip chunks).mapM (fun pc => (Value.parse pc.2 pc.1.ty).map Prod.fst)).map
          (fun vs => (vs, ([] : List Nat)))) := by
  constructor
  · intro sdb_id qs
    simp [ParamsReadQuery.write, ParamsReadQuery.new, ParamRead.write, List.flatMap_map]
  · intro ps chunks hf
    induction hf with
    | nil => rfl
    | @cons c p cs ps2 hcp htail ih =>
      simp only [List.map_cons, List.flatten_cons, List.cons_append]
      simp only [parse_dyn_payload]
      rw [if_neg (by omega)]
      have hlen : p.ty.response_len ≤ (c ++ (cs.map (fun c => 1 :: c)).flatten).length := by
        simp [List.length_append, ← hcp]
      rw [if_pos hlen]
      have htake : (c ++ (cs.map (fun c => 1 :: c)).flatten).take p.ty.response_len = c := by
        rw [← hcp]
        exact List.take_left c _
      have hdrop : (c ++ (cs.map (fun c => 1 :: c)).flatten).drop p.ty.response_len =
          (cs.map (fun c => 1 :: c)).flatten := by
        rw [← hcp]
        exact List.drop_left c _
      rw [htake, hdrop, List.zip_cons_cons, List.mapM_cons]
      rcases hv : Value.parse c p.ty with e | vk
      · rfl
      · rcases hm : (ps2.zip cs).mapM
            (fun pc => (Value.parse pc.2 pc.1.ty).map Prod.fst) with e2 | vs
        · rw [ih, hm]
          rfl
        · rw [ih, hm]
          rfl

/-- C7 witness: a two-parameter query set (a Byte and a Word) with its
serialized ReadItems, and the response stream 01 07 01 01 02 parsed back to
the two values in request order. -/
theorem c7_query_set_correspondence_witness :
    (ParamsReadQuery.new 9 [⟨0x10, .scalar .byte 1⟩, ⟨0x20, .scalar .word 2⟩]).write =
        toBE 2 0x2e00 ++ toBE 4 ([⟨0x10, .scalar .byte 1⟩, ⟨0x20, .scalar .word 2⟩] :
            List Parameter).length ++
          ([⟨0x10, .scalar .byte 1⟩, ⟨0x20, .scalar .word 2⟩] : List Parameter).flatMap
            (fun p => toBE 2 0x0003 ++ toBE 4 p.id ++ toBE 4 p.ty.response_len) ++
          toBE 4 9 ∧
      parse_dyn_payload ((([[7], [1, 2]] : List (List Nat)).map (fun c => 1 :: c)).flatten)
          [⟨0x10, .scalar .byte 1⟩, ⟨0x20, .scalar .word 2⟩] =
        ((([⟨0x10, .scalar .byte 1⟩, ⟨0x20, .scalar .word 2⟩] : List Parameter).zip
            [[7], [1, 2]]).mapM (fun pc => (Value.parse pc.2 pc.1.ty).map Prod.fst)).map
          (fun vs => (vs, ([] : List Nat))) :=
  ⟨c7_query_set_correspondence.1 9 [⟨0x10, .scalar .byte 1⟩, ⟨0x20, .scalar .word 2⟩],
    c7_query_set_correspondence.2 [⟨0x10, .scalar .byte 1⟩, ⟨0x20, .scalar .word 2⟩]
      [[7], [1, 2]] (.cons rfl (.cons rfl .nil))⟩

/-- C8 counterexample.  A response body whose per-parameter marker byte is
2 instead of 1 makes parse_dyn_payload panic through the assert_eq, rather
than return a recoverable DecodeError value: the failure is the
distinguished panic outcome, not an error constructor a caller could
catch. -/
theorem c8_bad_marker_counterexample :
    parse_dyn_payload [2, 0xAA] [⟨1, .scalar .byte 1⟩] = .error .panic := rfl

/-- C8 amended.  Each value in a parameter-read response body is preceded
by a marker byte that is not counted toward the value bytes (the value is
decoded from exactly response_len bytes after the marker), and a marker
byte different from 0x01 aborts parsing through the assert_eq panic (no
values are produced) instead of returning a DecodeError. -/
theorem c8_marker_byte :
    (∀ (p : Parameter) (ps : List Parameter) (b : Nat) (data : List Nat), b ≠ 1 →
      parse_dyn_payload (b :: data) (p :: ps) = .error .panic) ∧
    (∀ (p : Parameter) (data : List Nat) (v : Value) (k : Nat),
      Value.parse (data.take p.ty.response_len) p.ty = .ok (v, k) →
      p.ty.response_len ≤ data.length →
      parse_dyn_payload (1 :: data) [p] = .ok ([v], data.drop p.ty.response_len)) := by
  constructor
  · intro p ps b data hb
    simp [parse_dyn_payload, hb]
  · intro p data v k hv hlen
    simp only [parse_dyn_payload]
    rw [if_neg (by omega), if_pos hlen, hv]

/-- C8 witness: the marker of the single-Byte response 01 07 is consumed
and the value decoded from the byte after it; a 0 marker panics. -/
theorem c8_marker_byte_witness :
    parse_dyn_payload [0, 7] [⟨1, .scalar .byte 1⟩] = .error .panic ∧
      parse_dyn_payload [1, 7] [⟨1, .scalar .byte 1⟩] =
        .ok ([.int 7], (([7] : List Nat)).drop 1) := by
  refine ⟨c8_marker_byte.1 ⟨1, .scalar .byte 1⟩ [] 0 [7] (by decide), ?_⟩
  have hv : Value.parse (([7] : List Nat).take 1) (TypeInfo.scalar .byte 1) =
      .ok (.int 7, 1) := by
    rw [show ([7] : List Nat).take 1 = [7] from rfl]
    unfold Value.parse
    rw [parse_param_int_kind [7] 0 .byte 1 1 false rfl]
    simp [parse_int, readBytes, fromBE]
  have h := c8_marker_byte.2 ⟨1, .scalar .byte 1⟩ [7] (.int 7) 1 hv (by decide)
  exact h

end LeyboldOpc
